import Mathlib

/-!
# Mesen2: address translation (Gameboy.cpp) and instruction records (DisassemblyInfo.cpp)

A shallow embedding of `Gameboy::GetAbsoluteAddress`, `Gameboy::GetRelativeAddress`
and of the `DisassemblyInfo` class, followed by the properties proved about them.

Conventions of the embedding
* a pointer is the natural number of the byte it addresses, a null pointer is `none`;
* `uint8_t` is `Fin 256`; a `uint16_t`/`uint32_t` argument is a `Nat` whose range is
  stated where it is used;
* `int32_t` values are integers; `x & 0xFF` is `x % 256` and `x & ~0xFF` is
  `x - x % 256` (two's complement, `%` being the non-negative remainder), and a cast
  to `int32_t` is `toInt32`;
* `throw std::runtime_error(msg)` is `Except.error msg`.
-/

namespace Mesen

/-! ## Gameboy.cpp -/

/-- The `SnesMemoryType` enumerators that Gameboy.cpp names. -/
inductive SnesMemoryType
  | Register
  | GbPrgRom
  | GbWorkRam
  | GbCartRam
  | GbHighRam
  | GbBootRom
  | GbVideoRam
  | GbSpriteRam
  | GameboyMemory
  deriving DecidableEq, Repr

/-- The `AddressInfo` pair `{ Address, Type }`: an `int32_t` offset and a region
(`Type` is a reserved word, the field is `Type_`). -/
structure AddressInfo where
  Address : Int
  Type_ : SnesMemoryType
  deriving DecidableEq, Repr

/-- The cast `(int32_t)x` of a pointer difference: reduction into
`[-2^31, 2^31)` modulo `2^32`. -/
def toInt32 (x : Int) : Int := (x + 2 ^ 31) % 2 ^ 32 - 2 ^ 31

/-- The fields of `Gameboy` that the translator reads: base pointer and byte size
of the four storage blocks it tests, and the page table of the memory manager.
`reads k` is the block pointer of the page `k` (`0 ≤ k < 256`, the addresses
`256*k .. 256*k+255`), `none` when the page has no backing block. -/
structure Gameboy where
  _prgRom : Nat
  _prgRomSize : Nat
  _workRam : Nat
  _workRamSize : Nat
  _cartRam : Nat
  _cartRamSize : Nat
  _bootRom : Nat
  _bootRomSize : Nat
  reads : Nat → Option Nat

/-- Modelled from the spec: `GbMemoryManager::GetMappedBlock` is not part of the
sources; it "looks up the covering 256-byte page in the BankMappingTable", that is
the entry `addr >> 8`, and yields a null pointer when the page has no backing
block. -/
def Gameboy.GetMappedBlock (gb : Gameboy) (addr : Nat) : Option Nat :=
  gb.reads (addr / 256)

/-- `Gameboy::GetAbsoluteAddress(uint16_t addr)`, for `addr < 0x10000`. `addr & 0x7F` and
`addr & 0xFF` are the remainders by 128 and 256; a pointer difference is taken only
after the test `ptr >= base`, so it is a natural number. -/
def Gameboy.GetAbsoluteAddress (gb : Gameboy) (addr : Nat) : AddressInfo :=
  let addrInfo : AddressInfo := { Address := -1, Type_ := SnesMemoryType.Register }
  if 0xFF80 ≤ addr ∧ addr ≤ 0xFFFE then
    { Address := ((addr % 128 : Nat) : Int), Type_ := SnesMemoryType.GbHighRam }
  else
    match gb.GetMappedBlock addr with
    | none => addrInfo
    | some blk =>
      let ptr := blk + addr % 256
      if gb._prgRom ≤ ptr ∧ ptr < gb._prgRom + gb._prgRomSize then
        { Address := toInt32 ((ptr - gb._prgRom : Nat) : Int),
          Type_ := SnesMemoryType.GbPrgRom }
      else if gb._workRam ≤ ptr ∧ ptr < gb._workRam + gb._workRamSize then
        { Address := toInt32 ((ptr - gb._workRam : Nat) : Int),
          Type_ := SnesMemoryType.GbWorkRam }
      else if gb._cartRam ≤ ptr ∧ ptr < gb._cartRam + gb._cartRamSize then
        { Address := toInt32 ((ptr - gb._cartRam : Nat) : Int),
          Type_ := SnesMemoryType.GbCartRam }
      else if gb._bootRom ≤ ptr ∧ ptr < gb._bootRom + gb._bootRomSize then
        { Address := toInt32 ((ptr - gb._bootRom : Nat) : Int),
          Type_ := SnesMemoryType.GbBootRom }
      else addrInfo

/-- The test of the loop body of `GetRelativeAddress` at the page base `i`:
`blockAddr.Type == absAddress.Type &&
 (blockAddr.Address & ~0xFF) == (absAddress.Address & ~0xFF)`. -/
def Gameboy.blockMatches (gb : Gameboy) (absAddress : AddressInfo) (i : Nat) : Bool :=
  let blockAddr := gb.GetAbsoluteAddress i
  decide (blockAddr.Type_ = absAddress.Type_ ∧
    blockAddr.Address - blockAddr.Address % 256
      = absAddress.Address - absAddress.Address % 256)

/-- The loop `for(int32_t i = 0; i < 0x10000; i += 0x100)` of `GetRelativeAddress`,
entered at `i` with `n` iterations left (`n = (0x10000 - i) / 0x100`); falling out
of the loop gives the `return -1` that follows it. `i | (Address & 0xFF)` is a sum,
the low byte of `i` being zero. -/
def Gameboy.scanPages (gb : Gameboy) (absAddress : AddressInfo) : Nat → Nat → Int
  | 0, _ => -1
  | n + 1, i =>
    if gb.blockMatches absAddress i then
      (i : Int) + absAddress.Address % 256
    else
      Gameboy.scanPages gb absAddress n (i + 0x100)

/-- `Gameboy::GetRelativeAddress(AddressInfo& absAddress)`. `0xFF80 | (Address & 0x7F)` is
a sum, the low seven bits of `0xFF80` being zero. -/
def Gameboy.GetRelativeAddress (gb : Gameboy) (absAddress : AddressInfo) : Int :=
  if absAddress.Type_ = SnesMemoryType.GbHighRam then
    0xFF80 + absAddress.Address % 128
  else
    gb.scanPages absAddress 256 0

/-- The storage blocks `GetAbsoluteAddress` tests, in the order it tests them, each
as (region, base pointer, size). -/
def Gameboy.testedBlocks (gb : Gameboy) : List (SnesMemoryType × Nat × Nat) :=
  [ (SnesMemoryType.GbPrgRom, gb._prgRom, gb._prgRomSize),
    (SnesMemoryType.GbWorkRam, gb._workRam, gb._workRamSize),
    (SnesMemoryType.GbCartRam, gb._cartRam, gb._cartRamSize),
    (SnesMemoryType.GbBootRom, gb._bootRom, gb._bootRomSize) ]

/-- The specification's reading of the containment test: the first block of
`testedBlocks` whose range `[base, base + size)` contains the pointer `p`. -/
def Gameboy.firstBlockContaining (gb : Gameboy) (p : Nat) :
    Option (SnesMemoryType × Nat × Nat) :=
  gb.testedBlocks.find? (fun r => decide (r.2.1 ≤ p ∧ p < r.2.1 + r.2.2))

/-- A concrete machine for evaluating the translator: program ROM of 32 KiB at
`0x100000`, work RAM of 8 KiB at `0x200000`, cart RAM of 8 KiB at `0x300000`, boot
ROM of 256 bytes at `0x400000`; video RAM is a further block at `0x500000` that
`GetAbsoluteAddress` does not test. The pages `0x00..0x7F` show program ROM,
`0x80..0x9F` video RAM, `0xA0..0xBF` cart RAM, `0xC0..0xDF` work RAM, and the
pages `0xE0..0xFD` mirror work RAM. -/
def sampleGameboy : Gameboy where
  _prgRom := 0x100000
  _prgRomSize := 0x8000
  _workRam := 0x200000
  _workRamSize := 0x2000
  _cartRam := 0x300000
  _cartRamSize := 0x2000
  _bootRom := 0x400000
  _bootRomSize := 0x100
  reads := fun k =>
    if k < 0x80 then some (0x100000 + 256 * k)
    else if k < 0xA0 then some (0x500000 + 256 * (k - 0x80))
    else if k < 0xC0 then some (0x300000 + 256 * (k - 0xA0))
    else if k < 0xE0 then some (0x200000 + 256 * (k - 0xC0))
    else if k < 0xFE then some (0x200000 + 256 * (k - 0xE0))
    else none

/-- A machine whose only mapped page, `0x40`, starts `0x80` bytes into program ROM
instead of at a multiple of 256. -/
def skewedGameboy : Gameboy where
  _prgRom := 0x100000
  _prgRomSize := 0x8000
  _workRam := 0x200000
  _workRamSize := 0x2000
  _cartRam := 0x300000
  _cartRamSize := 0x2000
  _bootRom := 0x400000
  _bootRomSize := 0x100
  reads := fun k => if k = 0x40 then some (0x100080) else none

/-- The specification's reading of a page that matches the query `d`: translating the
base address `256 * k` of the page `k` gives the region of `d` and an offset in the
256-byte-aligned window of `d.Address` (the same quotient by 256, rounding down). -/
def Gameboy.pageShows (gb : Gameboy) (d : AddressInfo) (k : Nat) : Prop :=
  (gb.GetAbsoluteAddress (256 * k)).Type_ = d.Type_ ∧
    (gb.GetAbsoluteAddress (256 * k)).Address / 256 = d.Address / 256

instance (gb : Gameboy) (d : AddressInfo) (k : Nat) : Decidable (gb.pageShows d k) := by
  unfold Gameboy.pageShows
  exact inferInstance

/-! ## DisassemblyInfo.cpp -/

/-- A `uint8_t`. -/
abbrev Byte := Fin 256

/-- Modelled from the spec: the enumeration `CpuType` is declared outside the
sources. Its registered tags are the nine that the `switch` statements of
DisassemblyInfo.cpp name; `unregistered tag` is any other value of the tag, the one
that reaches a `default:` branch or the `throw` behind a `switch`. -/
inductive CpuType
  | Snes
  | Spc
  | NecDsp
  | Sa1
  | Gsu
  | Cx4
  | Gameboy
  | Nes
  | Pce
  | unregistered (tag : Nat)
  deriving DecidableEq, Repr

/-- The tag is one of `Snes, Spc, NecDsp, Sa1, Gsu, Cx4, Gameboy, Nes, Pce`. -/
def CpuType.isRegistered : CpuType → Bool
  | CpuType.unregistered _ => false
  | _ => true

/-- DisassemblyInfo.cpp names the memory-region enumeration `MemoryType`. -/
abbrev MemoryType := SnesMemoryType

/-- The memory port: `MemoryDumper::GetMemoryValue(memType, address)`, a byte for
every region and every `uint32_t` address. -/
structure MemoryDumper where
  GetMemoryValue : MemoryType → Nat → Byte

/-- Pointer to the label manager; the dispatchers only pass it on. -/
structure LabelManager where
  handle : Nat

/-- Pointer to the settings object; the dispatchers only pass it on. -/
structure EmuSettings where
  handle : Nat

/-- Pointer to a console (`SnesConsole*`, `Gameboy*`, `PceConsole*`). -/
structure Console where
  handle : Nat

/-- The `void* cpuState` argument, cast by each dispatcher to its own state type. -/
structure CpuState where
  handle : Nat

/-- What `GetEffectiveAddress` reads of the `Debugger`. -/
structure Debugger where
  GetConsole : Console
  GetMemoryDumper : MemoryDumper
  GetMainCpuType : CpuType

/-- Modelled from the spec: `EffectiveAddressInfo` is declared outside the sources;
it holds a signed address, `-1` for "no memory operand", and a value size. -/
structure EffectiveAddressInfo where
  Address : Int
  ValueSize : Nat
  deriving DecidableEq, Repr

/-- Modelled from the spec: the value-initialised `EffectiveAddressInfo` that `return {}`
yields, the "no operand" sentinel. -/
def EffectiveAddressInfo.empty : EffectiveAddressInfo := { Address := -1, ValueSize := 0 }

/-- The data members of `DisassemblyInfo`: `uint8_t _byteCode[8]`, `_opSize`, `_flags`,
`_cpuType`, `_initialized`. -/
structure DisassemblyInfo where
  _byteCode : Fin 8 → Byte
  _opSize : Byte
  _flags : Byte
  _cpuType : CpuType
  _initialized : Bool

/-- The per-architecture helpers that DisassemblyInfo.cpp calls and that live outside
the sources (`SnesDisUtils::GetOpSize` is `Snes_GetOpSize`, and so on), taken as
parameters. A NecDsp helper receives the 24-bit instruction word; the collaborators
(label manager, settings, console, CPU state, memory dumper) are passed as they are. -/
structure DisUtils where
  Snes_GetOpSize : Byte → Byte → Byte
  Spc_GetOpSize : Byte → Byte
  NecDsp_GetOpSize : Byte
  Gsu_GetOpSize : Byte → Byte
  Cx4_GetOpSize : Byte
  Gameboy_GetOpSize : Byte → Byte
  Nes_GetOpSize : Byte → Byte
  Pce_GetOpSize : Byte → Byte
  Snes_IsJumpToSub : Byte → Bool
  Spc_IsJumpToSub : Byte → Bool
  NecDsp_IsJumpToSub : Nat → Bool
  Cx4_IsJumpToSub : Byte → Bool
  Gameboy_IsJumpToSub : Byte → Bool
  Nes_IsJumpToSub : Byte → Bool
  Pce_IsJumpToSub : Byte → Bool
  Snes_IsReturnInstruction : Byte → Bool
  Spc_IsReturnInstruction : Byte → Bool
  NecDsp_IsReturnInstruction : Nat → Bool
  Cx4_IsReturnInstruction : Byte → Bool
  Gameboy_IsReturnInstruction : Byte → Bool
  Nes_IsReturnInstruction : Byte → Bool
  Pce_IsReturnInstruction : Byte → Bool
  Snes_CanDisassembleNextOp : Byte → Bool
  Gsu_CanDisassembleNextOp : Byte → Bool
  Cx4_CanDisassembleNextOp : Byte → Bool
  Snes_IsUnconditionalJump : Byte → Bool
  Spc_IsUnconditionalJump : Byte → Bool
  NecDsp_IsUnconditionalJump : Nat → Bool
  Gsu_IsUnconditionalJump : Byte → Bool
  Cx4_IsUnconditionalJump : Byte → Bool
  Gameboy_IsUnconditionalJump : Byte → Bool
  Nes_IsUnconditionalJump : Byte → Bool
  Pce_IsUnconditionalJump : Byte → Bool
  Snes_IsConditionalJump : Byte → Bool
  Spc_IsConditionalJump : Byte → Bool
  NecDsp_IsConditionalJump : Nat → Bool
  Gsu_IsConditionalJump : Byte → Bool
  Cx4_IsConditionalJump : Byte → Byte → Bool
  Gameboy_IsConditionalJump : Byte → Bool
  Nes_IsConditionalJump : Byte → Bool
  Pce_IsConditionalJump : Byte → Bool
  Snes_UpdateCpuFlags : Byte → (Fin 8 → Byte) → Byte → Byte
  Gsu_UpdateCpuFlags : Byte → Byte → Byte
  Snes_GetDisassembly : DisassemblyInfo → String → Nat → LabelManager → EmuSettings → String
  Spc_GetDisassembly : DisassemblyInfo → String → Nat → LabelManager → EmuSettings → String
  NecDsp_GetDisassembly : DisassemblyInfo → String → Nat → LabelManager → EmuSettings → String
  Gsu_GetDisassembly : DisassemblyInfo → String → Nat → LabelManager → EmuSettings → String
  Cx4_GetDisassembly : DisassemblyInfo → String → Nat → LabelManager → EmuSettings → String
  Gameboy_GetDisassembly : DisassemblyInfo → String → Nat → LabelManager → EmuSettings → String
  Nes_GetDisassembly : DisassemblyInfo → String → Nat → LabelManager → EmuSettings → String
  Pce_GetDisassembly : DisassemblyInfo → String → Nat → LabelManager → EmuSettings → String
  Snes_GetEffectiveAddress : DisassemblyInfo → Console → CpuState → CpuType → EffectiveAddressInfo
  Spc_GetEffectiveAddress : DisassemblyInfo → Console → CpuState → EffectiveAddressInfo
  Gsu_GetEffectiveAddress : DisassemblyInfo → Console → CpuState → EffectiveAddressInfo
  Cx4_GetEffectiveAddress : DisassemblyInfo → CpuState → MemoryDumper → EffectiveAddressInfo
  Gameboy_GetEffectiveAddress : DisassemblyInfo → Console → CpuState → EffectiveAddressInfo
  Nes_GetEffectiveAddress : DisassemblyInfo → CpuState → MemoryDumper → EffectiveAddressInfo
  Pce_GetEffectiveAddress : DisassemblyInfo → Console → CpuState → EffectiveAddressInfo
  SnesConsole_GetGameboy : Console → Console

/-- Modelled from the spec: `HexUtilities::ToHex(uint8_t)` is outside the sources; it
gives the "two-digit hexadecimal value" of a byte. One digit of it, upper case. -/
def HexUtilities.hexDigit (n : Nat) : Char :=
  if n < 10 then Char.ofNat (48 + n) else Char.ofNat (55 + n)

/-- Modelled from the spec: `HexUtilities::ToHex(uint8_t)`, the two hexadecimal digits of
a byte, high digit first. -/
def HexUtilities.ToHex (b : Byte) : String :=
  String.mk [HexUtilities.hexDigit (b.val / 16), HexUtilities.hexDigit (b.val % 16)]

namespace DisassemblyInfo

/-- The assignment `_byteCode[i] = v`. The array has 8 entries; an index from 8 on is
outside it and leaves the record's buffer as it is. -/
def setByte (bc : Fin 8 → Byte) (i : Nat) (v : Byte) : Fin 8 → Byte :=
  fun j => if j.val = i then v else bc j

/-- The read `_byteCode[i]` for a run-time index; an index from 8 on is outside the
array and reads as 0. -/
def byteAt (d : DisassemblyInfo) (i : Nat) : Byte :=
  if h : i < 8 then d._byteCode ⟨i, h⟩ else 0

/-- Modelled from the spec: the default member initialisers are in DisassemblyInfo.h,
outside the sources; a default-constructed record is uninitialized, its other members
zero. -/
def fresh : DisassemblyInfo where
  _byteCode := fun _ => 0
  _opSize := 0
  _flags := 0
  _cpuType := CpuType.Snes
  _initialized := false

/-- The static `DisassemblyInfo::GetOpSize(uint8_t opCode, uint8_t flags, CpuType type)`. -/
def GetOpSizeOf (u : DisUtils) (opCode flags : Byte) : CpuType → Except String Byte
  | CpuType.Snes => Except.ok (u.Snes_GetOpSize opCode flags)
  | CpuType.Spc => Except.ok (u.Spc_GetOpSize opCode)
  | CpuType.NecDsp => Except.ok u.NecDsp_GetOpSize
  | CpuType.Sa1 => Except.ok (u.Snes_GetOpSize opCode flags)
  | CpuType.Gsu => Except.ok (u.Gsu_GetOpSize opCode)
  | CpuType.Cx4 => Except.ok u.Cx4_GetOpSize
  | CpuType.Gameboy => Except.ok (u.Gameboy_GetOpSize opCode)
  | CpuType.Nes => Except.ok (u.Nes_GetOpSize opCode)
  | CpuType.Pce => Except.ok (u.Pce_GetOpSize opCode)
  | CpuType.unregistered _ => Except.error "GetOpSize - Unsupported CPU type"

/-- `DisassemblyInfo::Initialize`. The members are assigned in the order of the source;
the loop `for(int i = 1; i < _opSize; i++)` runs over `i = 1, ..., _opSize - 1`, and the
address `cpuAddress + i` is a `uint32_t`. When `GetOpSize` throws, so does `Initialize`. -/
def Initialize (u : DisUtils) (d : DisassemblyInfo) (cpuAddress : Nat) (cpuFlags : Byte)
    (cpuType : CpuType) (memType : MemoryType) (memoryDumper : MemoryDumper) :
    Except String DisassemblyInfo :=
  let d1 : DisassemblyInfo := { d with _cpuType := cpuType, _flags := cpuFlags }
  let d2 : DisassemblyInfo :=
    { d1 with _byteCode := setByte d1._byteCode 0 (memoryDumper.GetMemoryValue memType cpuAddress) }
  match GetOpSizeOf u (d2._byteCode 0) d2._flags d2._cpuType with
  | Except.error e => Except.error e
  | Except.ok opSize =>
    let d3 : DisassemblyInfo := { d2 with _opSize := opSize }
    let bytes := (List.range' 1 (d3._opSize.val - 1)).foldl
      (fun bc i =>
        setByte bc i (memoryDumper.GetMemoryValue memType ((cpuAddress + i) % 2 ^ 32)))
      d3._byteCode
    Except.ok { d3 with _byteCode := bytes, _initialized := true }

/-- `DisassemblyInfo::IsInitialized`. -/
def IsInitialized (d : DisassemblyInfo) : Bool := d._initialized

/-- `DisassemblyInfo::IsValid(uint8_t cpuFlags)`. -/
def IsValid (d : DisassemblyInfo) (cpuFlags : Byte) : Bool := decide (d._flags = cpuFlags)

/-- `DisassemblyInfo::Reset`. -/
def Reset (d : DisassemblyInfo) : DisassemblyInfo := { d with _initialized := false }

/-- `DisassemblyInfo::GetCpuType`. -/
def GetCpuType (d : DisassemblyInfo) : CpuType := d._cpuType

/-- `DisassemblyInfo::GetOpCode`. -/
def GetOpCode (d : DisassemblyInfo) : Byte := d._byteCode 0

/-- `DisassemblyInfo::GetOpSize()`. -/
def GetOpSize (d : DisassemblyInfo) : Byte := d._opSize

/-- `DisassemblyInfo::GetFlags`. -/
def GetFlags (d : DisassemblyInfo) : Byte := d._flags

/-- `uint8_t* DisassemblyInfo::GetByteCode()`: the buffer itself. -/
def GetByteCode (d : DisassemblyInfo) : Fin 8 → Byte := d._byteCode

/-- `DisassemblyInfo::GetByteCode(uint8_t copyBuffer[8])`:
`memcpy(copyBuffer, _byteCode, _opSize)`. -/
def GetByteCodeCopy (d : DisassemblyInfo) (copyBuffer : Fin 8 → Byte) : Fin 8 → Byte :=
  fun j => if j.val < d._opSize.val then d._byteCode j else copyBuffer j

/-- `DisassemblyInfo::GetByteCode(string &out)`. The `FastString` is its character
buffer: `WriteAll('$', hex)` appends the character and the string, `Write(' ')` the
character, and `out += str.ToString()` appends the buffer to `out`. The test
`i < _opSize - 1` is made on `int`. -/
def GetByteCodeString (d : DisassemblyInfo) (out : String) : String :=
  let str : List Char := (List.range d._opSize.val).foldl
    (fun str i =>
      let str := str ++ ('$' :: (HexUtilities.ToHex (d.byteAt i)).data)
      if (i : Int) < (d._opSize.val : Int) - 1 then str ++ [' '] else str)
    []
  out ++ String.mk str

/-- The word `_byteCode[0] | (_byteCode[1] << 8) | (_byteCode[2] << 16)` handed to the
NecDsp helpers. -/
def necDspWord (d : DisassemblyInfo) : Nat :=
  (d._byteCode 0).val ||| ((d._byteCode 1).val <<< 8) ||| ((d._byteCode 2).val <<< 16)

/-- `DisassemblyInfo::IsJumpToSub`. -/
def IsJumpToSub (u : DisUtils) (d : DisassemblyInfo) : Except String Bool :=
  match d._cpuType with
  | CpuType.Snes => Except.ok (u.Snes_IsJumpToSub d.GetOpCode)
  | CpuType.Spc => Except.ok (u.Spc_IsJumpToSub d.GetOpCode)
  | CpuType.NecDsp => Except.ok (u.NecDsp_IsJumpToSub d.necDspWord)
  | CpuType.Sa1 => Except.ok (u.Snes_IsJumpToSub d.GetOpCode)
  | CpuType.Gsu => Except.ok false
  | CpuType.Cx4 => Except.ok (u.Cx4_IsJumpToSub (d.GetByteCode 1))
  | CpuType.Gameboy => Except.ok (u.Gameboy_IsJumpToSub d.GetOpCode)
  | CpuType.Nes => Except.ok (u.Nes_IsJumpToSub d.GetOpCode)
  | CpuType.Pce => Except.ok (u.Pce_IsJumpToSub d.GetOpCode)
  | CpuType.unregistered _ => Except.error "IsJumpToSub - Unsupported CPU type"

/-- `DisassemblyInfo::IsReturnInstruction`. -/
def IsReturnInstruction (u : DisUtils) (d : DisassemblyInfo) : Except String Bool :=
  match d._cpuType with
  | CpuType.Snes => Except.ok (u.Snes_IsReturnInstruction d.GetOpCode)
  | CpuType.Spc => Except.ok (u.Spc_IsReturnInstruction d.GetOpCode)
  | CpuType.NecDsp => Except.ok (u.NecDsp_IsReturnInstruction d.necDspWord)
  | CpuType.Sa1 => Except.ok (u.Snes_IsReturnInstruction d.GetOpCode)
  | CpuType.Gsu => Except.ok false
  | CpuType.Cx4 => Except.ok (u.Cx4_IsReturnInstruction (d.GetByteCode 1))
  | CpuType.Gameboy => Except.ok (u.Gameboy_IsReturnInstruction d.GetOpCode)
  | CpuType.Nes => Except.ok (u.Nes_IsReturnInstruction d.GetOpCode)
  | CpuType.Pce => Except.ok (u.Pce_IsReturnInstruction d.GetOpCode)
  | CpuType.unregistered _ => Except.error "IsReturnInstruction - Unsupported CPU type"

/-- `DisassemblyInfo::IsUnconditionalJump`. -/
def IsUnconditionalJump (u : DisUtils) (d : DisassemblyInfo) : Except String Bool :=
  match d._cpuType with
  | CpuType.Snes => Except.ok (u.Snes_IsUnconditionalJump d.GetOpCode)
  | CpuType.Spc => Except.ok (u.Spc_IsUnconditionalJump d.GetOpCode)
  | CpuType.NecDsp => Except.ok (u.NecDsp_IsUnconditionalJump d.necDspWord)
  | CpuType.Sa1 => Except.ok (u.Snes_IsUnconditionalJump d.GetOpCode)
  | CpuType.Gsu => Except.ok (u.Gsu_IsUnconditionalJump d.GetOpCode)
  | CpuType.Cx4 => Except.ok (u.Cx4_IsUnconditionalJump (d.GetByteCode 1))
  | CpuType.Gameboy => Except.ok (u.Gameboy_IsUnconditionalJump d.GetOpCode)
  | CpuType.Nes => Except.ok (u.Nes_IsUnconditionalJump d.GetOpCode)
  | CpuType.Pce => Except.ok (u.Pce_IsUnconditionalJump d.GetOpCode)
  | CpuType.unregistered _ => Except.error "IsUnconditionalJump - Unsupported CPU type"

/-- `DisassemblyInfo::CanDisassembleNextOp`; an exception of `IsUnconditionalJump`
passes through. -/
def CanDisassembleNextOp (u : DisUtils) (d : DisassemblyInfo) : Except String Bool :=
  match d.IsUnconditionalJump u with
  | Except.error e => Except.error e
  | Except.ok true => Except.ok false
  | Except.ok false =>
    match d._cpuType with
    | CpuType.Snes => Except.ok (u.Snes_CanDisassembleNextOp d.GetOpCode)
    | CpuType.Sa1 => Except.ok (u.Snes_CanDisassembleNextOp d.GetOpCode)
    | CpuType.Gsu => Except.ok (u.Gsu_CanDisassembleNextOp d.GetOpCode)
    | CpuType.Cx4 => Except.ok (u.Cx4_CanDisassembleNextOp (d.GetByteCode 1))
    | _ => Except.ok true

/-- `DisassemblyInfo::IsJump`; an exception of `IsUnconditionalJump` passes through. -/
def IsJump (u : DisUtils) (d : DisassemblyInfo) : Except String Bool :=
  match d.IsUnconditionalJump u with
  | Except.error e => Except.error e
  | Except.ok true => Except.ok true
  | Except.ok false =>
    match d._cpuType with
    | CpuType.Snes => Except.ok (u.Snes_IsConditionalJump d.GetOpCode)
    | CpuType.Spc => Except.ok (u.Spc_IsConditionalJump d.GetOpCode)
    | CpuType.NecDsp => Except.ok (u.NecDsp_IsConditionalJump d.necDspWord)
    | CpuType.Sa1 => Except.ok (u.Snes_IsConditionalJump d.GetOpCode)
    | CpuType.Gsu => Except.ok (u.Gsu_IsConditionalJump d.GetOpCode)
    | CpuType.Cx4 => Except.ok (u.Cx4_IsConditionalJump (d.GetByteCode 1) (d.GetByteCode 0))
    | CpuType.Gameboy => Except.ok (u.Gameboy_IsConditionalJump d.GetOpCode)
    | CpuType.Nes => Except.ok (u.Nes_IsConditionalJump d.GetOpCode)
    | CpuType.Pce => Except.ok (u.Pce_IsConditionalJump d.GetOpCode)
    | CpuType.unregistered _ => Except.error "IsJump - Unsupported CPU type"

/-- `DisassemblyInfo::UpdateCpuFlags(uint8_t& cpuFlags)`: the value of `cpuFlags` on
return. The function has no `throw`. -/
def UpdateCpuFlags (u : DisUtils) (d : DisassemblyInfo) (cpuFlags : Byte) :
    Except String Byte :=
  match d._cpuType with
  | CpuType.Snes => Except.ok (u.Snes_UpdateCpuFlags d.GetOpCode d.GetByteCode cpuFlags)
  | CpuType.Sa1 => Except.ok (u.Snes_UpdateCpuFlags d.GetOpCode d.GetByteCode cpuFlags)
  | CpuType.Gsu => Except.ok (u.Gsu_UpdateCpuFlags d.GetOpCode cpuFlags)
  | _ => Except.ok cpuFlags

/-- `DisassemblyInfo::GetDisassembly`: the value of `out` on return. -/
def GetDisassembly (u : DisUtils) (d : DisassemblyInfo) (out : String) (memoryAddr : Nat)
    (labelManager : LabelManager) (settings : EmuSettings) : Except String String :=
  match d._cpuType with
  | CpuType.Sa1 => Except.ok (u.Snes_GetDisassembly d out memoryAddr labelManager settings)
  | CpuType.Snes => Except.ok (u.Snes_GetDisassembly d out memoryAddr labelManager settings)
  | CpuType.Spc => Except.ok (u.Spc_GetDisassembly d out memoryAddr labelManager settings)
  | CpuType.NecDsp => Except.ok (u.NecDsp_GetDisassembly d out memoryAddr labelManager settings)
  | CpuType.Gsu => Except.ok (u.Gsu_GetDisassembly d out memoryAddr labelManager settings)
  | CpuType.Cx4 => Except.ok (u.Cx4_GetDisassembly d out memoryAddr labelManager settings)
  | CpuType.Gameboy => Except.ok (u.Gameboy_GetDisassembly d out memoryAddr labelManager settings)
  | CpuType.Nes => Except.ok (u.Nes_GetDisassembly d out memoryAddr labelManager settings)
  | CpuType.Pce => Except.ok (u.Pce_GetDisassembly d out memoryAddr labelManager settings)
  | CpuType.unregistered _ => Except.error "GetDisassembly - Unsupported CPU type"

/-- `DisassemblyInfo::GetEffectiveAddress`. -/
def GetEffectiveAddress (u : DisUtils) (d : DisassemblyInfo) (debugger : Debugger)
    (cpuState : CpuState) (cpuType : CpuType) : Except String EffectiveAddressInfo :=
  match d._cpuType with
  | CpuType.Sa1 =>
    Except.ok (u.Snes_GetEffectiveAddress d debugger.GetConsole cpuState cpuType)
  | CpuType.Snes =>
    Except.ok (u.Snes_GetEffectiveAddress d debugger.GetConsole cpuState cpuType)
  | CpuType.Spc => Except.ok (u.Spc_GetEffectiveAddress d debugger.GetConsole cpuState)
  | CpuType.Gsu => Except.ok (u.Gsu_GetEffectiveAddress d debugger.GetConsole cpuState)
  | CpuType.Cx4 => Except.ok (u.Cx4_GetEffectiveAddress d cpuState debugger.GetMemoryDumper)
  | CpuType.NecDsp => Except.ok EffectiveAddressInfo.empty
  | CpuType.Gameboy =>
    if debugger.GetMainCpuType = CpuType.Snes then
      let gb := u.SnesConsole_GetGameboy debugger.GetConsole
      Except.ok (u.Gameboy_GetEffectiveAddress d gb cpuState)
    else
      Except.ok (u.Gameboy_GetEffectiveAddress d debugger.GetConsole cpuState)
  | CpuType.Nes => Except.ok (u.Nes_GetEffectiveAddress d cpuState debugger.GetMemoryDumper)
  | CpuType.Pce => Except.ok (u.Pce_GetEffectiveAddress d debugger.GetConsole cpuState)
  | CpuType.unregistered _ => Except.error "GetEffectiveAddress - Unsupported CPU type"

/-- The specification's reading of the byte-code text: each byte as `$` and its two
hexadecimal digits, the items separated by one space. -/
def renderBytes (bytes : List Byte) : List Char :=
  List.intercalate [' '] (bytes.map (fun b => '$' :: (HexUtilities.ToHex b).data))

end DisassemblyInfo

/-- A concrete set of helpers for evaluating the dispatchers. It knows three 6502
instructions, used for Nes and Pce: `JSR` (`0x20`, 3 bytes, jump to subroutine), `JMP`
(`0x4C`, 3 bytes, unconditional jump) and `RTS` (`0x60`, 1 byte, return); every other
opcode is a 1-byte instruction that is no jump. The 65816 immediate load `0xA9` takes 2
bytes when the flag bit `0x20` is set and 3 bytes otherwise. -/
def sampleUtils : DisUtils where
  Snes_GetOpSize := fun op flags =>
    if op = 0xA9 then (if flags.val / 32 % 2 = 1 then 2 else 3) else 1
  Spc_GetOpSize := fun _ => 1
  NecDsp_GetOpSize := 3
  Gsu_GetOpSize := fun _ => 1
  Cx4_GetOpSize := 2
  Gameboy_GetOpSize := fun _ => 1
  Nes_GetOpSize := fun op => if op = 0x20 ∨ op = 0x4C then 3 else 1
  Pce_GetOpSize := fun op => if op = 0x20 ∨ op = 0x4C then 3 else 1
  Snes_IsJumpToSub := fun op => decide (op = 0x20)
  Spc_IsJumpToSub := fun _ => false
  NecDsp_IsJumpToSub := fun _ => false
  Cx4_IsJumpToSub := fun _ => false
  Gameboy_IsJumpToSub := fun _ => false
  Nes_IsJumpToSub := fun op => decide (op = 0x20)
  Pce_IsJumpToSub := fun op => decide (op = 0x20)
  Snes_IsReturnInstruction := fun op => decide (op = 0x60)
  Spc_IsReturnInstruction := fun _ => false
  NecDsp_IsReturnInstruction := fun _ => false
  Cx4_IsReturnInstruction := fun _ => false
  Gameboy_IsReturnInstruction := fun _ => false
  Nes_IsReturnInstruction := fun op => decide (op = 0x60)
  Pce_IsReturnInstruction := fun op => decide (op = 0x60)
  Snes_CanDisassembleNextOp := fun _ => true
  Gsu_CanDisassembleNextOp := fun _ => true
  Cx4_CanDisassembleNextOp := fun _ => true
  Snes_IsUnconditionalJump := fun op => decide (op = 0x4C)
  Spc_IsUnconditionalJump := fun _ => false
  NecDsp_IsUnconditionalJump := fun _ => false
  Gsu_IsUnconditionalJump := fun _ => false
  Cx4_IsUnconditionalJump := fun _ => false
  Gameboy_IsUnconditionalJump := fun _ => false
  Nes_IsUnconditionalJump := fun op => decide (op = 0x4C)
  Pce_IsUnconditionalJump := fun op => decide (op = 0x4C)
  Snes_IsConditionalJump := fun _ => false
  Spc_IsConditionalJump := fun _ => false
  NecDsp_IsConditionalJump := fun _ => false
  Gsu_IsConditionalJump := fun _ => false
  Cx4_IsConditionalJump := fun _ _ => false
  Gameboy_IsConditionalJump := fun _ => false
  Nes_IsConditionalJump := fun _ => false
  Pce_IsConditionalJump := fun _ => false
  Snes_UpdateCpuFlags := fun _ _ flags => flags
  Gsu_UpdateCpuFlags := fun _ flags => flags
  Snes_GetDisassembly := fun _ out _ _ _ => out
  Spc_GetDisassembly := fun _ out _ _ _ => out
  NecDsp_GetDisassembly := fun _ out _ _ _ => out
  Gsu_GetDisassembly := fun _ out _ _ _ => out
  Cx4_GetDisassembly := fun _ out _ _ _ => out
  Gameboy_GetDisassembly := fun _ out _ _ _ => out
  Nes_GetDisassembly := fun _ out _ _ _ => out
  Pce_GetDisassembly := fun _ out _ _ _ => out
  Snes_GetEffectiveAddress := fun _ _ _ _ => EffectiveAddressInfo.empty
  Spc_GetEffectiveAddress := fun _ _ _ => EffectiveAddressInfo.empty
  Gsu_GetEffectiveAddress := fun _ _ _ => EffectiveAddressInfo.empty
  Cx4_GetEffectiveAddress := fun _ _ _ => EffectiveAddressInfo.empty
  Gameboy_GetEffectiveAddress := fun _ _ _ => EffectiveAddressInfo.empty
  Nes_GetEffectiveAddress := fun _ _ _ => EffectiveAddressInfo.empty
  Pce_GetEffectiveAddress := fun _ _ _ => EffectiveAddressInfo.empty
  SnesConsole_GetGameboy := fun c => c

/-- A memory port that shows `20 34 12` (`JSR $1234`) at the addresses `0x8000..0x8002`
and `4C 00 80` (`JMP $8000`) at `0x8003..0x8005` of every region, and `EA` elsewhere. -/
def sampleMemory : MemoryDumper where
  GetMemoryValue := fun _ addr =>
    if addr = 0x8000 then 0x20
    else if addr = 0x8001 then 0x34
    else if addr = 0x8002 then 0x12
    else if addr = 0x8003 then 0x4C
    else if addr = 0x8004 then 0x00
    else if addr = 0x8005 then 0x80
    else 0xEA

/-- A record whose architecture tag is the unregistered value 9. -/
def sampleUnregistered : DisassemblyInfo :=
  { DisassemblyInfo.fresh with _cpuType := CpuType.unregistered 9 }

/-- An initialized 65816 record holding `4C 00 80` (`JMP $8000`). -/
def sampleJump : DisassemblyInfo where
  _byteCode := fun j => if j.val = 0 then 0x4C else if j.val = 1 then 0x00 else 0x80
  _opSize := 3
  _flags := 0
  _cpuType := CpuType.Snes
  _initialized := true

/-- An initialized Nes record of length 3 holding `20 34 12`; the five bytes of the
buffer behind the instruction are `FF`. -/
def sampleCall : DisassemblyInfo where
  _byteCode := fun j =>
    if j.val = 0 then 0x20 else if j.val = 1 then 0x34 else if j.val = 2 then 0x12 else 0xFF
  _opSize := 3
  _flags := 1
  _cpuType := CpuType.Nes
  _initialized := true

/-- A debugger handle for evaluating `GetEffectiveAddress`. -/
def sampleDebugger : Debugger where
  GetConsole := { handle := 0 }
  GetMemoryDumper := sampleMemory
  GetMainCpuType := CpuType.Nes

/-- Every mapped page starts at a 256-byte-aligned offset of its storage block: when the
block pointer of a page lies in one of the tested blocks, its distance from the base of
that block is a multiple of 256. -/
def Gameboy.pagesAligned (gb : Gameboy) : Prop :=
  ∀ k, k < 256 → ∀ blk, gb.reads k = some blk →
    ∀ r, r ∈ gb.testedBlocks → r.2.1 ≤ blk → blk < r.2.1 + r.2.2 → (blk - r.2.1) % 256 = 0

/-- The tested blocks are separate allocations: of any two, one is empty or one ends
before the other begins. -/
def Gameboy.blocksSeparate (gb : Gameboy) : Prop :=
  gb.testedBlocks.Pairwise
    (fun r s => r.2.2 = 0 ∨ s.2.2 = 0 ∨ r.2.1 + r.2.2 ≤ s.2.1 ∨ s.2.1 + s.2.2 ≤ r.2.1)

namespace DisassemblyInfo

/-- The specification's "conditional-jump test of the architecture" on the cached bytes:
the helper of the record's architecture applied to the opcode byte, for Cx4 to the second
byte and the first, for NecDsp to the 24-bit instruction word; an unregistered tag has no
helper. -/
def conditionalJumpTest (u : DisUtils) (d : DisassemblyInfo) : Bool :=
  match d._cpuType with
  | CpuType.Snes => u.Snes_IsConditionalJump (d._byteCode 0)
  | CpuType.Spc => u.Spc_IsConditionalJump (d._byteCode 0)
  | CpuType.NecDsp =>
    u.NecDsp_IsConditionalJump
      ((d._byteCode 0).val ||| ((d._byteCode 1).val <<< 8) ||| ((d._byteCode 2).val <<< 16))
  | CpuType.Sa1 => u.Snes_IsConditionalJump (d._byteCode 0)
  | CpuType.Gsu => u.Gsu_IsConditionalJump (d._byteCode 0)
  | CpuType.Cx4 => u.Cx4_IsConditionalJump (d._byteCode 1) (d._byteCode 0)
  | CpuType.Gameboy => u.Gameboy_IsConditionalJump (d._byteCode 0)
  | CpuType.Nes => u.Nes_IsConditionalJump (d._byteCode 0)
  | CpuType.Pce => u.Pce_IsConditionalJump (d._byteCode 0)
  | CpuType.unregistered _ => false

/-- `DisassemblyInfo::IsValid(uint8_t cpuFlags)` as a call on the object: the value
returned and the record after the call. The body is one `return` of a comparison and
assigns no member. -/
def IsValidCall (d : DisassemblyInfo) (cpuFlags : Byte) : Bool × DisassemblyInfo :=
  (decide (d._flags = cpuFlags), d)

end DisassemblyInfo

/-- The helpers of `sampleUtils`, with the 6502 branch `BNE` (`0xD0`) as the conditional
jump of Nes. -/
def sampleBranchUtils : DisUtils :=
  { sampleUtils with Nes_IsConditionalJump := fun op => decide (op = 0xD0) }

/-- An initialized Nes record of length 2 holding `D0 FE` (`BNE` to itself). -/
def sampleBranch : DisassemblyInfo where
  _byteCode := fun j => if j.val = 0 then 0xD0 else if j.val = 1 then 0xFE else 0
  _opSize := 2
  _flags := 0
  _cpuType := CpuType.Nes
  _initialized := true

/-! ## Properties of the address translator -/

section Translator

open SnesMemoryType

theorem toInt32_emod_256 (x : Int) : toInt32 x % 256 = x % 256 := by
  unfold toInt32
  norm_num
  omega

theorem toInt32_of_lt (x : Int) (h0 : 0 ≤ x) (h1 : x < 2 ^ 31) : toInt32 x = x := by
  unfold toInt32
  norm_num at h1 ⊢
  omega

theorem toInt32_window (x lo : Int) (hx : toInt32 x % 256 = 0) (h0 : 0 ≤ lo)
    (h1 : lo < 256) :
    toInt32 (x + lo) - toInt32 (x + lo) % 256 = toInt32 x - toInt32 x % 256 := by
  unfold toInt32 at *
  norm_num at *
  omega

theorem scanPages_none (gb : Gameboy) (d : AddressInfo) :
    ∀ (n i : Nat), (∀ j, j < n → gb.blockMatches d (i + 256 * j) = false) →
      gb.scanPages d n i = -1 := by
  intro n
  induction n with
  | zero => intro i _; rfl
  | succ n ih =>
    intro i h
    have h0 : gb.blockMatches d i = false := by simpa using h 0 (Nat.succ_pos n)
    have hrest : ∀ j, j < n → gb.blockMatches d (i + 0x100 + 256 * j) = false := by
      intro j hj
      have := h (j + 1) (Nat.succ_lt_succ hj)
      have e : i + 256 * (j + 1) = i + 0x100 + 256 * j := by omega
      rwa [e] at this
    simp [Gameboy.scanPages, h0, ih (i + 0x100) hrest]

theorem scanPages_first (gb : Gameboy) (d : AddressInfo) :
    ∀ (n i k : Nat), k < n → gb.blockMatches d (i + 256 * k) = true →
      (∀ j, j < k → gb.blockMatches d (i + 256 * j) = false) →
      gb.scanPages d n i = ((i + 256 * k : Nat) : Int) + d.Address % 256 := by
  intro n
  induction n with
  | zero => intro i k hk; omega
  | succ n ih =>
    intro i k hk hm hf
    cases k with
    | zero =>
      have h0 : gb.blockMatches d i = true := by simpa using hm
      simp [Gameboy.scanPages, h0]
    | succ k =>
      have h0 : gb.blockMatches d i = false := by simpa using hf 0 (Nat.succ_pos k)
      have e : ∀ j, i + 256 * (j + 1) = i + 0x100 + 256 * j := by intro j; omega
      have hm2 : gb.blockMatches d (i + 0x100 + 256 * k) = true := by
        rw [← e]; exact hm
      have hf2 : ∀ j, j < k → gb.blockMatches d (i + 0x100 + 256 * j) = false := by
        intro j hj
        rw [← e]; exact hf (j + 1) (Nat.succ_lt_succ hj)
      have := ih (i + 0x100) k (Nat.lt_of_succ_lt_succ hk) hm2 hf2
      simp only [Gameboy.scanPages, h0]
      rw [e k]
      simpa using this

theorem scanPages_exists (gb : Gameboy) (d : AddressInfo) (n i k : Nat) (hk : k < n)
    (hm : gb.blockMatches d (i + 256 * k) = true) :
    ∃ j, j ≤ k ∧ gb.blockMatches d (i + 256 * j) = true ∧
      gb.scanPages d n i = ((i + 256 * j : Nat) : Int) + d.Address % 256 := by
  classical
  have hex : ∃ j, gb.blockMatches d (i + 256 * j) = true := ⟨k, hm⟩
  refine ⟨Nat.find hex, Nat.find_min' hex hm, Nat.find_spec hex, ?_⟩
  apply scanPages_first gb d n i (Nat.find hex)
    (lt_of_le_of_lt (Nat.find_min' hex hm) hk) (Nat.find_spec hex)
  intro j hj
  have := Nat.find_min hex hj
  simpa using this

theorem scanPages_eq_neg_one_iff (gb : Gameboy) (d : AddressInfo) (n i : Nat) :
    gb.scanPages d n i = -1 ↔ ∀ j, j < n → gb.blockMatches d (i + 256 * j) = false := by
  constructor
  · intro h j hj
    by_contra hne
    have hm : gb.blockMatches d (i + 256 * j) = true := by simpa using hne
    obtain ⟨j', _, _, he⟩ := scanPages_exists gb d n i j hj hm
    rw [he] at h
    have := Int.emod_nonneg d.Address (show (256 : Int) ≠ 0 by decide)
    omega
  · exact scanPages_none gb d n i

theorem GetAbsoluteAddress_type_ne_high (gb : Gameboy) (A : Nat)
    (h : ¬ (0xFF80 ≤ A ∧ A ≤ 0xFFFE)) :
    (gb.GetAbsoluteAddress A).Type_ ≠ GbHighRam := by
  unfold Gameboy.GetAbsoluteAddress
  simp only [h, if_false]
  split
  · simp
  · split_ifs <;> simp

end Translator

section TranslatorClaims

open SnesMemoryType

/-- C4. On the fixed high region `0xFF80 ≤ A ≤ 0xFFFE` the result of
`GetAbsoluteAddress` is exactly `(GbHighRam, A & 0x7F)`, and it is the same for any
two machines, whatever their page tables hold. -/
theorem GetAbsoluteAddress_high (gb gb2 : Gameboy) (A : Nat) (h1 : 0xFF80 ≤ A)
    (h2 : A ≤ 0xFFFE) :
    gb.GetAbsoluteAddress A = { Address := ((A % 128 : Nat) : Int), Type_ := GbHighRam } ∧
      gb.GetAbsoluteAddress A = gb2.GetAbsoluteAddress A := by
  have h : 0xFF80 ≤ A ∧ A ≤ 0xFFFE := ⟨h1, h2⟩
  simp [Gameboy.GetAbsoluteAddress, h]

theorem GetAbsoluteAddress_high_witness :
    sampleGameboy.GetAbsoluteAddress 0xFF91 = { Address := 0x11, Type_ := GbHighRam } ∧
      sampleGameboy.GetAbsoluteAddress 0xFF91 = skewedGameboy.GetAbsoluteAddress 0xFF91 :=
  GetAbsoluteAddress_high sampleGameboy skewedGameboy 0xFF91 (by decide) (by decide)

/-- C5. Outside the fixed high region, an address whose page entry has no backing
block translates to the sentinel descriptor: type `Register`, address `-1`. -/
theorem GetAbsoluteAddress_unmapped (gb : Gameboy) (A : Nat)
    (hhigh : ¬ (0xFF80 ≤ A ∧ A ≤ 0xFFFE)) (hnone : gb.reads (A / 256) = none) :
    gb.GetAbsoluteAddress A = { Address := -1, Type_ := Register } := by
  simp [Gameboy.GetAbsoluteAddress, Gameboy.GetMappedBlock, hhigh, hnone]

theorem GetAbsoluteAddress_unmapped_witness :
    sampleGameboy.GetAbsoluteAddress 0xFF10 = { Address := -1, Type_ := Register } :=
  GetAbsoluteAddress_unmapped sampleGameboy 0xFF10 (by decide) (by decide)

/-- C2. Outside the fixed high region, when the page of `A` has the backing block
`blk`, put `p = blk + (A & 0xFF)`. If `R` with base `base` is the first of program
ROM, work RAM, cart RAM, boot ROM whose range contains `p`, the result is `R` with
the `int32_t` value of `p - base`, which is `p - base` itself for a block of at most
`2^31` bytes; if none of the four contains `p`, the result is `(Register, -1)`. -/
theorem GetAbsoluteAddress_mapped (gb : Gameboy) (A blk : Nat)
    (hhigh : ¬ (0xFF80 ≤ A ∧ A ≤ 0xFFFE)) (hmap : gb.GetMappedBlock A = some blk) :
    match gb.firstBlockContaining (blk + A % 256) with
    | some (R, base, size) =>
        gb.GetAbsoluteAddress A
            = { Address := toInt32 ((blk + A % 256 - base : Nat) : Int), Type_ := R } ∧
          (size ≤ 2 ^ 31 →
            toInt32 ((blk + A % 256 - base : Nat) : Int) = ((blk + A % 256 : Nat) : Int) - base)
    | none => gb.GetAbsoluteAddress A = { Address := -1, Type_ := Register } := by
  simp only [Gameboy.GetAbsoluteAddress, hhigh, if_false, hmap, Gameboy.firstBlockContaining,
    Gameboy.testedBlocks, List.find?]
  by_cases c1 : gb._prgRom ≤ blk + A % 256 ∧ blk + A % 256 < gb._prgRom + gb._prgRomSize
  · simp only [c1, and_self, decide_True, if_true, true_and]
    intro hs
    rw [toInt32_of_lt _ (by omega) (by norm_num at hs ⊢; omega)]
    omega
  · by_cases c2 : gb._workRam ≤ blk + A % 256 ∧ blk + A % 256 < gb._workRam + gb._workRamSize
    · simp only [c1, c2, and_self, decide_True, decide_False, if_true, if_false, true_and]
      intro hs
      rw [toInt32_of_lt _ (by omega) (by norm_num at hs ⊢; omega)]
      omega
    · by_cases c3 : gb._cartRam ≤ blk + A % 256 ∧ blk + A % 256 < gb._cartRam + gb._cartRamSize
      · simp only [c1, c2, c3, and_self, decide_True, decide_False, if_true, if_false, true_and]
        intro hs
        rw [toInt32_of_lt _ (by omega) (by norm_num at hs ⊢; omega)]
        omega
      · by_cases c4 : gb._bootRom ≤ blk + A % 256 ∧ blk + A % 256 < gb._bootRom + gb._bootRomSize
        · simp only [c1, c2, c3, c4, and_self, decide_True, decide_False, if_true, if_false,
            true_and]
          intro hs
          rw [toInt32_of_lt _ (by omega) (by norm_num at hs ⊢; omega)]
          omega
        · simp only [c1, c2, c3, c4, decide_False, if_false]

theorem GetAbsoluteAddress_mapped_witness :
    sampleGameboy.GetAbsoluteAddress 0xC123 = { Address := 0x123, Type_ := GbWorkRam } ∧
      sampleGameboy.GetAbsoluteAddress 0x8012 = { Address := -1, Type_ := Register } :=
  ⟨(GetAbsoluteAddress_mapped sampleGameboy 0xC123 0x200100 (by decide) (by decide)).1.trans
      (by decide),
    GetAbsoluteAddress_mapped sampleGameboy 0x8012 0x500000 (by decide) (by decide)⟩

end TranslatorClaims

section RoundTrip

open SnesMemoryType

theorem aligned_page_window (gb : Gameboy) (A : Nat) (hhigh : ¬ (0xFF80 ≤ A ∧ A ≤ 0xFFFE))
    (htype : (gb.GetAbsoluteAddress (A - A % 256)).Type_ = (gb.GetAbsoluteAddress A).Type_)
    (hz : (gb.GetAbsoluteAddress (A - A % 256)).Address % 256 = 0) :
    (gb.GetAbsoluteAddress (A - A % 256)).Address
        - (gb.GetAbsoluteAddress (A - A % 256)).Address % 256
      = (gb.GetAbsoluteAddress A).Address - (gb.GetAbsoluteAddress A).Address % 256 ∧
    (gb.GetAbsoluteAddress A).Address % 256 = ((A % 256 : Nat) : Int) := by
  have hb : ¬ (0xFF80 ≤ A - A % 256 ∧ A - A % 256 ≤ 0xFFFE) := by omega
  have hpg : (A - A % 256) / 256 = A / 256 := by omega
  have hlo : (A - A % 256) % 256 = 0 := by omega
  have hlt : ((A % 256 : Nat) : Int) < 256 := by omega
  have hge : (0 : Int) ≤ ((A % 256 : Nat) : Int) := by omega
  simp only [Gameboy.GetAbsoluteAddress, Gameboy.GetMappedBlock, hhigh, hb, if_false, hpg, hlo,
    Nat.add_zero] at htype hz ⊢
  cases hr : gb.reads (A / 256) with
  | none =>
    rw [hr] at hz
    simp at hz
  | some blk =>
    rw [hr] at htype hz
    simp only at htype hz ⊢
    have key : ∀ base : Nat, base ≤ blk →
        toInt32 ((blk - base : Nat) : Int) % 256 = 0 →
        toInt32 ((blk - base : Nat) : Int) - toInt32 ((blk - base : Nat) : Int) % 256
          = toInt32 ((blk + A % 256 - base : Nat) : Int)
              - toInt32 ((blk + A % 256 - base : Nat) : Int) % 256 ∧
        toInt32 ((blk + A % 256 - base : Nat) : Int) % 256 = ((A % 256 : Nat) : Int) := by
      intro base hle h0
      have e : ((blk + A % 256 - base : Nat) : Int)
          = ((blk - base : Nat) : Int) + ((A % 256 : Nat) : Int) := by omega
      rw [e]
      refine ⟨(toInt32_window _ _ h0 hge hlt).symm, ?_⟩
      rw [toInt32_emod_256] at h0 ⊢
      omega
    split_ifs at htype hz ⊢ with a1 a2 a3 a4 a5 a6 a7 a8 <;>
      first
      | exact SnesMemoryType.noConfusion htype
      | (exfalso; dsimp only at hz; omega)
      | (dsimp only at hz ⊢; exact key _ (by omega) hz)

/-- C1, as amended. For a 16-bit banked address `A` whose page entry has a backing
block: if `A` lies in the fixed high region, or `GetAbsoluteAddress` of the page base
`A & 0xFF00` has the region of `GetAbsoluteAddress A` and an offset that is a multiple
of 256, then `GetRelativeAddress (GetAbsoluteAddress A)` is not `-1` and has the low
8 bits of `A`. -/
theorem GetRelativeAddress_GetAbsoluteAddress (gb : Gameboy) (A : Nat) (hA : A < 0x10000)
    (_hmap : gb.reads (A / 256) ≠ none)
    (hal : (0xFF80 ≤ A ∧ A ≤ 0xFFFE) ∨
      ((gb.GetAbsoluteAddress (A - A % 256)).Type_ = (gb.GetAbsoluteAddress A).Type_ ∧
        (gb.GetAbsoluteAddress (A - A % 256)).Address % 256 = 0)) :
    gb.GetRelativeAddress (gb.GetAbsoluteAddress A) ≠ -1 ∧
      gb.GetRelativeAddress (gb.GetAbsoluteAddress A) % 256 = ((A % 256 : Nat) : Int) := by
  by_cases hhigh : 0xFF80 ≤ A ∧ A ≤ 0xFFFE
  · have e : gb.GetAbsoluteAddress A
        = { Address := ((A % 128 : Nat) : Int), Type_ := GbHighRam } := by
      simp [Gameboy.GetAbsoluteAddress, hhigh]
    rw [e]
    simp only [Gameboy.GetRelativeAddress, if_true]
    omega
  · rcases hal with h | ⟨htype, hz⟩
    · exact absurd h hhigh
    · obtain ⟨hw, hlow⟩ := aligned_page_window gb A hhigh htype hz
      have hne := GetAbsoluteAddress_type_ne_high gb A hhigh
      have hm : gb.blockMatches (gb.GetAbsoluteAddress A) (0 + 256 * (A / 256)) = true := by
        have e : 0 + 256 * (A / 256) = A - A % 256 := by omega
        rw [e]
        simp [Gameboy.blockMatches, htype, hw]
      obtain ⟨j, -, -, he⟩ :=
        scanPages_exists gb (gb.GetAbsoluteAddress A) 256 0 (A / 256) (by omega) hm
      simp only [Gameboy.GetRelativeAddress, hne, if_false, he, hlow]
      constructor <;> omega

end RoundTrip

section Scan

open SnesMemoryType

theorem blockMatches_iff_pageShows (gb : Gameboy) (d : AddressInfo) (k : Nat) :
    gb.blockMatches d (0 + 256 * k) = true ↔ gb.pageShows d k := by
  simp only [Gameboy.blockMatches, Gameboy.pageShows, Nat.zero_add, decide_eq_true_eq]
  constructor
  · rintro ⟨h1, h2⟩
    exact ⟨h1, by omega⟩
  · rintro ⟨h1, h2⟩
    exact ⟨h1, by omega⟩

/-- C3. For a query `d` whose region is not `GbHighRam`, `GetRelativeAddress d` is
`256 * k + (d.Address & 0xFF)` for the smallest page `k < 256` that matches `d`, and
it is `-1` exactly when no page below 256 matches. -/
theorem GetRelativeAddress_first_match (gb : Gameboy) (d : AddressInfo)
    (hd : d.Type_ ≠ GbHighRam) :
    (∀ k, k < 256 → gb.pageShows d k → (∀ j, j < k → ¬ gb.pageShows d j) →
        gb.GetRelativeAddress d = ((256 * k : Nat) : Int) + d.Address % 256) ∧
      (gb.GetRelativeAddress d = -1 ↔ ∀ k, k < 256 → ¬ gb.pageShows d k) := by
  simp only [Gameboy.GetRelativeAddress, hd, if_false]
  constructor
  · intro k hk hm hf
    have := scanPages_first gb d 256 0 k hk ((blockMatches_iff_pageShows gb d k).2 hm)
      (fun j hj => by
        have := hf j hj
        rw [← blockMatches_iff_pageShows] at this
        simpa using this)
    simpa using this
  · rw [scanPages_eq_neg_one_iff]
    constructor
    · intro h k hk hp
      have := h k hk
      rw [(blockMatches_iff_pageShows gb d k).2 hp] at this
      exact Bool.noConfusion this
    · intro h k hk
      have := h k hk
      rw [← blockMatches_iff_pageShows] at this
      simpa using this

set_option maxRecDepth 100000 in
theorem GetRelativeAddress_first_match_witness :
    sampleGameboy.GetRelativeAddress { Address := 0x123, Type_ := GbWorkRam } = 0xC123 ∧
      sampleGameboy.GetRelativeAddress { Address := 0x3000, Type_ := GbWorkRam } = -1 :=
  ⟨((GetRelativeAddress_first_match sampleGameboy { Address := 0x123, Type_ := GbWorkRam }
        (by decide)).1 0xC1 (by decide) (by decide) (by decide)).trans (by decide),
    (GetRelativeAddress_first_match sampleGameboy { Address := 0x3000, Type_ := GbWorkRam }
        (by decide)).2.2 (by decide)⟩

end Scan

section RoundTripExamples

open SnesMemoryType

set_option maxRecDepth 100000 in
/-- C1, refuted as stated. In `sampleGameboy` the page of `0x8012` has a backing
block (video RAM), yet the round trip gives `0x80FF`, whose low byte is `0xFF` and
not `0x12`; in `skewedGameboy` the page of `0x4090` has a backing block and the
round trip gives `-1`. -/
theorem GetRelativeAddress_GetAbsoluteAddress_counterexample :
    (sampleGameboy.reads (0x8012 / 256) = some 0x500000 ∧
      sampleGameboy.GetAbsoluteAddress 0x8012 = { Address := -1, Type_ := Register } ∧
      sampleGameboy.GetRelativeAddress (sampleGameboy.GetAbsoluteAddress 0x8012) = 0x80FF ∧
      ¬ (sampleGameboy.GetRelativeAddress (sampleGameboy.GetAbsoluteAddress 0x8012) % 256
          = ((0x8012 % 256 : Nat) : Int))) ∧
    (skewedGameboy.reads (0x4090 / 256) = some 0x100080 ∧
      skewedGameboy.GetAbsoluteAddress 0x4090 = { Address := 0x110, Type_ := GbPrgRom } ∧
      skewedGameboy.GetRelativeAddress (skewedGameboy.GetAbsoluteAddress 0x4090) = -1) := by
  decide

theorem GetRelativeAddress_GetAbsoluteAddress_witness :
    sampleGameboy.GetRelativeAddress (sampleGameboy.GetAbsoluteAddress 0xE123) ≠ -1 ∧
      sampleGameboy.GetRelativeAddress (sampleGameboy.GetAbsoluteAddress 0xE123) % 256
        = ((0xE123 % 256 : Nat) : Int) :=
  GetRelativeAddress_GetAbsoluteAddress sampleGameboy 0xE123 (by decide) (by decide)
    (Or.inr (by decide))

end RoundTripExamples

section Record

open DisassemblyInfo

theorem foldl_setByte (f : Nat → Byte) (l : List Nat) :
    ∀ (bc : Fin 8 → Byte) (j : Fin 8),
      (l.foldl (fun bc i => setByte bc i (f i)) bc) j
        = if j.val ∈ l then f j.val else bc j := by
  induction l with
  | nil => intro bc j; simp
  | cons i rest ih =>
    intro bc j
    rw [List.foldl_cons, ih]
    by_cases h1 : j.val ∈ rest
    · simp [h1]
    · by_cases h2 : j.val = i
      · simp [h1, h2, setByte]
      · simp [h1, h2, setByte]

/-- C6. For a registered architecture, a 32-bit address `a` and helpers whose length
for the fetched opcode is at most 8, `Initialize` returns a record that is initialized,
holds `arch` and `f`, has the opcode `m(a)`, has as length the value of the static
`GetOpSize(m(a), f, arch)`, and whose byte `i` is `m(a + i)` (the sum taken as a
`uint32_t`) for every `i` below the length. -/
theorem Initialize_post (u : DisUtils) (d0 : DisassemblyInfo) (a : Nat) (f : Byte)
    (arch : CpuType) (memType : MemoryType) (m : MemoryDumper)
    (harch : arch.isRegistered = true) (ha : a < 2 ^ 32)
    (hlen : ∀ L, GetOpSizeOf u (m.GetMemoryValue memType a) f arch = Except.ok L → L.val ≤ 8) :
    ∃ d, Initialize u d0 a f arch memType m = Except.ok d ∧
      d.IsInitialized = true ∧ d.GetCpuType = arch ∧ d.GetFlags = f ∧
      d.GetOpCode = m.GetMemoryValue memType a ∧
      GetOpSizeOf u (m.GetMemoryValue memType a) f arch = Except.ok d.GetOpSize ∧
      ∀ i, i < d.GetOpSize.val → d.byteAt i = m.GetMemoryValue memType ((a + i) % 2 ^ 32) := by
  have hop : ∃ L, GetOpSizeOf u (m.GetMemoryValue memType a) f arch = Except.ok L := by
    cases arch <;> first | exact ⟨_, rfl⟩ | exact absurd harch (by simp [CpuType.isRegistered])
  obtain ⟨L, hL⟩ := hop
  have hL8 := hlen L hL
  have h0 : setByte d0._byteCode 0 (m.GetMemoryValue memType a) 0 = m.GetMemoryValue memType a := by
    simp [setByte]
  have hI : Initialize u d0 a f arch memType m = Except.ok
      { _byteCode := (List.range' 1 (L.val - 1)).foldl
          (fun bc i => setByte bc i (m.GetMemoryValue memType ((a + i) % 2 ^ 32)))
          (setByte d0._byteCode 0 (m.GetMemoryValue memType a)),
        _opSize := L, _flags := f, _cpuType := arch, _initialized := true } := by
    simp only [Initialize, h0, hL]
  refine ⟨_, hI, ?_⟩
  · refine ⟨rfl, rfl, rfl, ?_, ?_, ?_⟩
    · simp only [GetOpCode]
      rw [foldl_setByte (fun i => m.GetMemoryValue memType ((a + i) % 2 ^ 32))]
      simp [setByte]
    · exact hL
    · intro i hi
      simp only [GetOpSize] at hi
      have hi8 : i < 8 := lt_of_lt_of_le hi hL8
      simp only [byteAt, hi8, dif_pos]
      rw [foldl_setByte (fun i => m.GetMemoryValue memType ((a + i) % 2 ^ 32))]
      by_cases hz : i = 0
      · subst hz
        have e : a % 4294967296 = a := Nat.mod_eq_of_lt (by norm_num at ha; exact ha)
        simp [setByte, e]
      · have hmem : i ∈ List.range' 1 (L.val - 1) := by
          rw [List.mem_range'_1]
          omega
        simp [hmem]

theorem Initialize_post_witness :
    ∃ d, Initialize sampleUtils fresh 0x8000 1 CpuType.Nes SnesMemoryType.GbPrgRom sampleMemory
        = Except.ok d ∧
      d.IsInitialized = true ∧ d.GetCpuType = CpuType.Nes ∧ d.GetFlags = 1 ∧
      d.GetOpCode = sampleMemory.GetMemoryValue SnesMemoryType.GbPrgRom 0x8000 ∧
      GetOpSizeOf sampleUtils (sampleMemory.GetMemoryValue SnesMemoryType.GbPrgRom 0x8000) 1
        CpuType.Nes = Except.ok d.GetOpSize ∧
      ∀ i, i < d.GetOpSize.val →
        d.byteAt i = sampleMemory.GetMemoryValue SnesMemoryType.GbPrgRom ((0x8000 + i) % 2 ^ 32) :=
  Initialize_post sampleUtils fresh 0x8000 1 CpuType.Nes SnesMemoryType.GbPrgRom sampleMemory
    (by decide) (by decide) (by
      intro L hL
      have h3 : L = 3 := by
        have : (Except.ok 3 : Except String Byte) = Except.ok L := hL
        injection this with h
        exact h.symm
      rw [h3]
      decide)

end Record

section Queries

open DisassemblyInfo

/-- The record that `Initialize` leaves for the `JSR $1234` of `sampleMemory`, decoded as
a Nes instruction with flags `1`. -/
theorem Initialize_sample :
    Initialize sampleUtils fresh 0x8000 1 CpuType.Nes SnesMemoryType.GbPrgRom sampleMemory
      = Except.ok
          { _byteCode := (List.range' 1 2).foldl
              (fun bc i => setByte bc i
                (sampleMemory.GetMemoryValue SnesMemoryType.GbPrgRom ((0x8000 + i) % 2 ^ 32)))
              (setByte fresh._byteCode 0 0x20),
            _opSize := 3, _flags := 1, _cpuType := CpuType.Nes, _initialized := true } := by
  rfl

/-- C7, refuted as stated. The record obtained by `Initialize` at the `JSR $1234` of
`sampleMemory` and then `Reset` is not initialized, and every query returns a value on
it: the opcode `0x20`, the length 3, the flags `1`, the text `$20 $34 $12`, and the
answers of the classification queries. The default-constructed record answers too. -/
theorem uninitialized_queries_counterexample :
    ∃ d, Initialize sampleUtils fresh 0x8000 1 CpuType.Nes SnesMemoryType.GbPrgRom sampleMemory
        = Except.ok d ∧
      d.Reset.IsInitialized = false ∧
      d.Reset.IsValid 1 = true ∧
      d.Reset.GetOpCode = 0x20 ∧
      d.Reset.GetOpSize = 3 ∧
      d.Reset.GetFlags = 1 ∧
      d.Reset.GetCpuType = CpuType.Nes ∧
      d.Reset.GetByteCode 1 = 0x34 ∧
      d.Reset.GetByteCodeString "" = "$20 $34 $12" ∧
      d.Reset.IsJump sampleUtils = Except.ok false ∧
      d.Reset.IsJumpToSub sampleUtils = Except.ok true ∧
      d.Reset.IsReturnInstruction sampleUtils = Except.ok false ∧
      d.Reset.IsUnconditionalJump sampleUtils = Except.ok false ∧
      d.Reset.CanDisassembleNextOp sampleUtils = Except.ok true ∧
      fresh.IsInitialized = false ∧
      fresh.GetOpCode = 0 ∧
      fresh.IsJump sampleUtils = Except.ok false := by
  refine ⟨_, Initialize_sample, ?_⟩
  refine ⟨rfl, rfl, rfl, rfl, rfl, rfl, rfl, ?_, rfl, rfl, rfl, rfl, rfl, rfl, rfl, rfl⟩
  decide

/-- C7, as amended. `Reset` clears the initialized bit and nothing else, and no query
reads that bit: on `Reset d` every query other than `IsInitialized` returns what it
returns on `d`; and whenever the architecture of a record is registered, initialized or
not, each classification query returns a value. -/
theorem Reset_queries (u : DisUtils) (d : DisassemblyInfo) (g : Byte) (out : String) :
    d.Reset.IsInitialized = false ∧
      d.Reset.IsValid g = d.IsValid g ∧
      d.Reset.GetOpCode = d.GetOpCode ∧
      d.Reset.GetOpSize = d.GetOpSize ∧
      d.Reset.GetFlags = d.GetFlags ∧
      d.Reset.GetCpuType = d.GetCpuType ∧
      d.Reset.GetByteCode = d.GetByteCode ∧
      d.Reset.GetByteCodeString out = d.GetByteCodeString out ∧
      d.Reset.IsJump u = d.IsJump u ∧
      d.Reset.IsJumpToSub u = d.IsJumpToSub u ∧
      d.Reset.IsReturnInstruction u = d.IsReturnInstruction u ∧
      d.Reset.IsUnconditionalJump u = d.IsUnconditionalJump u ∧
      d.Reset.CanDisassembleNextOp u = d.CanDisassembleNextOp u ∧
      (d._cpuType.isRegistered = true →
        (∃ b, d.IsJump u = Except.ok b) ∧ (∃ b, d.IsJumpToSub u = Except.ok b) ∧
        (∃ b, d.IsReturnInstruction u = Except.ok b) ∧
        (∃ b, d.IsUnconditionalJump u = Except.ok b) ∧
        (∃ b, d.CanDisassembleNextOp u = Except.ok b)) := by
  refine ⟨rfl, rfl, rfl, rfl, rfl, rfl, rfl, rfl, rfl, rfl, rfl, rfl, rfl, ?_⟩
  intro hreg
  have hu : ∃ b, d.IsUnconditionalJump u = Except.ok b := by
    unfold IsUnconditionalJump
    cases hc : d._cpuType <;>
      first
      | exact ⟨_, rfl⟩
      | (rw [hc] at hreg; exact absurd hreg (by simp [CpuType.isRegistered]))
  obtain ⟨b, hb⟩ := hu
  refine ⟨?_, ?_, ?_, ⟨b, hb⟩, ?_⟩
  · unfold IsJump
    rw [hb]
    cases b
    · cases hc : d._cpuType <;>
        first
        | exact ⟨_, rfl⟩
        | (rw [hc] at hreg; exact absurd hreg (by simp [CpuType.isRegistered]))
    · exact ⟨_, rfl⟩
  · unfold IsJumpToSub
    cases hc : d._cpuType <;>
      first
      | exact ⟨_, rfl⟩
      | (rw [hc] at hreg; exact absurd hreg (by simp [CpuType.isRegistered]))
  · unfold IsReturnInstruction
    cases hc : d._cpuType <;>
      first
      | exact ⟨_, rfl⟩
      | (rw [hc] at hreg; exact absurd hreg (by simp [CpuType.isRegistered]))
  · unfold CanDisassembleNextOp
    rw [hb]
    cases b
    · cases hc : d._cpuType <;> exact ⟨_, rfl⟩
    · exact ⟨_, rfl⟩

/-- C8, refuted as stated. On a record whose architecture tag is the unregistered value
9, `UpdateCpuFlags` returns normally and leaves the flags `0x30` as they are. -/
theorem UpdateCpuFlags_unregistered_counterexample :
    sampleUnregistered._cpuType.isRegistered = false ∧
      sampleUnregistered.UpdateCpuFlags sampleUtils 0x30 = Except.ok 0x30 :=
  ⟨rfl, rfl⟩

/-- C8, as amended. For an architecture tag that is not registered, the static
`GetOpSize`, `IsJumpToSub`, `IsReturnInstruction`, `IsUnconditionalJump`,
`GetDisassembly` and `GetEffectiveAddress` fail with their own "Unsupported CPU type"
error, `IsJump` and `CanDisassembleNextOp` fail with the error of the
`IsUnconditionalJump` they call first, and `UpdateCpuFlags` returns normally with the
flags unchanged. -/
theorem unregistered_dispatch (u : DisUtils) (d : DisassemblyInfo) (opCode flags : Byte)
    (out : String) (memoryAddr : Nat) (labelManager : LabelManager) (settings : EmuSettings)
    (debugger : Debugger) (cpuState : CpuState) (cpuType : CpuType)
    (h : d._cpuType.isRegistered = false) :
    GetOpSizeOf u opCode flags d._cpuType = Except.error "GetOpSize - Unsupported CPU type" ∧
      d.IsJumpToSub u = Except.error "IsJumpToSub - Unsupported CPU type" ∧
      d.IsReturnInstruction u = Except.error "IsReturnInstruction - Unsupported CPU type" ∧
      d.IsUnconditionalJump u = Except.error "IsUnconditionalJump - Unsupported CPU type" ∧
      d.IsJump u = Except.error "IsUnconditionalJump - Unsupported CPU type" ∧
      d.CanDisassembleNextOp u = Except.error "IsUnconditionalJump - Unsupported CPU type" ∧
      d.GetDisassembly u out memoryAddr labelManager settings
        = Except.error "GetDisassembly - Unsupported CPU type" ∧
      d.GetEffectiveAddress u debugger cpuState cpuType
        = Except.error "GetEffectiveAddress - Unsupported CPU type" ∧
      d.UpdateCpuFlags u flags = Except.ok flags := by
  cases hc : d._cpuType with
  | unregistered tag =>
    simp [GetOpSizeOf, IsJumpToSub, IsReturnInstruction, IsUnconditionalJump, IsJump,
      CanDisassembleNextOp, GetDisassembly, GetEffectiveAddress, UpdateCpuFlags, hc]
  | _ => rw [hc] at h; exact absurd h (by simp [CpuType.isRegistered])

theorem unregistered_dispatch_witness :
    GetOpSizeOf sampleUtils 0x20 0x30 sampleUnregistered._cpuType
        = Except.error "GetOpSize - Unsupported CPU type" ∧
      IsJumpToSub sampleUtils sampleUnregistered
        = Except.error "IsJumpToSub - Unsupported CPU type" ∧
      IsReturnInstruction sampleUtils sampleUnregistered
        = Except.error "IsReturnInstruction - Unsupported CPU type" ∧
      IsUnconditionalJump sampleUtils sampleUnregistered
        = Except.error "IsUnconditionalJump - Unsupported CPU type" ∧
      IsJump sampleUtils sampleUnregistered
        = Except.error "IsUnconditionalJump - Unsupported CPU type" ∧
      CanDisassembleNextOp sampleUtils sampleUnregistered
        = Except.error "IsUnconditionalJump - Unsupported CPU type" ∧
      GetDisassembly sampleUtils sampleUnregistered "" 0x8000
          { handle := 0 } { handle := 0 }
        = Except.error "GetDisassembly - Unsupported CPU type" ∧
      GetEffectiveAddress sampleUtils sampleUnregistered
          sampleDebugger { handle := 0 } CpuType.Nes
        = Except.error "GetEffectiveAddress - Unsupported CPU type" ∧
      UpdateCpuFlags sampleUtils sampleUnregistered 0x30
        = Except.ok 0x30 :=
  unregistered_dispatch sampleUtils sampleUnregistered 0x20 0x30
    "" 0x8000 { handle := 0 } { handle := 0 } sampleDebugger { handle := 0 } CpuType.Nes rfl

/-- C10. Whenever `IsUnconditionalJump` returns true, `CanDisassembleNextOp` returns
false: the architecture's own `CanDisassembleNextOp` helper is not asked. -/
theorem CanDisassembleNextOp_of_unconditional (u : DisUtils) (d : DisassemblyInfo)
    (h : d.IsUnconditionalJump u = Except.ok true) :
    d.CanDisassembleNextOp u = Except.ok false := by
  simp [CanDisassembleNextOp, h]

theorem CanDisassembleNextOp_of_unconditional_witness :
    sampleJump.IsUnconditionalJump sampleUtils = Except.ok true ∧
      sampleJump.CanDisassembleNextOp sampleUtils = Except.ok false :=
  ⟨rfl, CanDisassembleNextOp_of_unconditional sampleUtils sampleJump rfl⟩

end Queries

section ByteCodeText

open DisassemblyInfo

theorem ToHex_data (b : Byte) :
    (HexUtilities.ToHex b).data
      = [HexUtilities.hexDigit (b.val / 16), HexUtilities.hexDigit (b.val % 16)] := rfl

/-- C9. For a record of length `n` with `1 ≤ n ≤ 8`, `GetByteCode(string&)` appends to
`out` the first `n` bytes of the buffer, in order, each as `$` and its two hexadecimal
digits, separated by single spaces, `4n - 1` characters in all. -/
theorem GetByteCodeString_render (d : DisassemblyInfo) (out : String)
    (h1 : 1 ≤ d._opSize.val) (h8 : d._opSize.val ≤ 8) :
    d.GetByteCodeString out
        = out ++ String.mk (renderBytes ((List.range d._opSize.val).map d.byteAt)) ∧
      (renderBytes ((List.range d._opSize.val).map d.byteAt)).length
        = 4 * d._opSize.val - 1 := by
  have hn : d._opSize.val = 1 ∨ d._opSize.val = 2 ∨ d._opSize.val = 3 ∨ d._opSize.val = 4 ∨
      d._opSize.val = 5 ∨ d._opSize.val = 6 ∨ d._opSize.val = 7 ∨ d._opSize.val = 8 := by
    omega
  rcases hn with h | h | h | h | h | h | h | h <;>
    simp [GetByteCodeString, renderBytes, h, List.range_succ, List.intercalate, ToHex_data]

theorem GetByteCodeString_render_witness :
    sampleCall.GetByteCodeString "" = "$20 $34 $12" ∧
      (renderBytes ((List.range sampleCall._opSize.val).map sampleCall.byteAt)).length = 11 :=
  ⟨(GetByteCodeString_render sampleCall "" (by decide) (by decide)).1.trans (by decide),
    (GetByteCodeString_render sampleCall "" (by decide) (by decide)).2⟩

end ByteCodeText


section JumpAndValidity

open DisassemblyInfo

/-- C11. For a record of a registered architecture, `IsJump` returns the disjunction of
what `IsUnconditionalJump` returns and the architecture's conditional-jump test on the
same cached bytes. -/
theorem IsJump_eq_or (u : DisUtils) (d : DisassemblyInfo)
    (hreg : d._cpuType.isRegistered = true) :
    ∃ b, d.IsUnconditionalJump u = Except.ok b ∧
      d.IsJump u = Except.ok (b || d.conditionalJumpTest u) := by
  unfold IsJump IsUnconditionalJump conditionalJumpTest
  cases hc : d._cpuType with
  | unregistered tag => rw [hc] at hreg; exact absurd hreg (by simp [CpuType.isRegistered])
  | Snes => cases hb : u.Snes_IsUnconditionalJump d.GetOpCode <;> exact ⟨_, rfl, by simp [hb, GetOpCode]⟩
  | Spc => cases hb : u.Spc_IsUnconditionalJump d.GetOpCode <;> exact ⟨_, rfl, by simp [hb, GetOpCode]⟩
  | NecDsp =>
    cases hb : u.NecDsp_IsUnconditionalJump d.necDspWord <;>
      exact ⟨_, rfl, by simp [hb, necDspWord]⟩
  | Sa1 => cases hb : u.Snes_IsUnconditionalJump d.GetOpCode <;> exact ⟨_, rfl, by simp [hb, GetOpCode]⟩
  | Gsu => cases hb : u.Gsu_IsUnconditionalJump d.GetOpCode <;> exact ⟨_, rfl, by simp [hb, GetOpCode]⟩
  | Cx4 =>
    cases hb : u.Cx4_IsUnconditionalJump (d.GetByteCode 1) <;>
      exact ⟨_, rfl, by simp [hb, GetByteCode]⟩
  | Gameboy =>
    cases hb : u.Gameboy_IsUnconditionalJump d.GetOpCode <;>
      exact ⟨_, rfl, by simp [hb, GetOpCode]⟩
  | Nes => cases hb : u.Nes_IsUnconditionalJump d.GetOpCode <;> exact ⟨_, rfl, by simp [hb, GetOpCode]⟩
  | Pce => cases hb : u.Pce_IsUnconditionalJump d.GetOpCode <;> exact ⟨_, rfl, by simp [hb, GetOpCode]⟩

theorem IsJump_eq_or_witness :
    sampleBranch.IsUnconditionalJump sampleBranchUtils = Except.ok false ∧
      sampleBranch.conditionalJumpTest sampleBranchUtils = true ∧
      sampleBranch.IsJump sampleBranchUtils = Except.ok true ∧
      ∃ b, sampleBranch.IsUnconditionalJump sampleBranchUtils = Except.ok b ∧
        sampleBranch.IsJump sampleBranchUtils
          = Except.ok (b || sampleBranch.conditionalJumpTest sampleBranchUtils) :=
  ⟨rfl, rfl, rfl, IsJump_eq_or sampleBranchUtils sampleBranch rfl⟩

/-- C12. For a record that `Initialize` returned for the flags `f`, `IsValid g` is true
exactly when `g = f`, and the call leaves the record as it was. -/
theorem IsValid_iff (u : DisUtils) (d0 d : DisassemblyInfo) (a : Nat) (f g : Byte)
    (arch : CpuType) (memType : MemoryType) (m : MemoryDumper)
    (hinit : Initialize u d0 a f arch memType m = Except.ok d) :
    (d.IsValid g = true ↔ g = f) ∧ (d.IsValidCall g).1 = d.IsValid g ∧
      (d.IsValidCall g).2 = d := by
  have hf : d._flags = f := by
    unfold Initialize at hinit
    simp only at hinit
    split at hinit
    · exact Except.noConfusion hinit
    · injection hinit with h
      rw [← h]
  refine ⟨?_, rfl, rfl⟩
  simp only [IsValid, decide_eq_true_eq, hf]
  exact eq_comm

theorem IsValid_iff_witness :
    ∃ d, Initialize sampleUtils fresh 0x8000 0x01 CpuType.Nes SnesMemoryType.GbPrgRom sampleMemory
        = Except.ok d ∧
      d.IsValid 0x01 = true ∧ d.IsValid 0x02 = false ∧ (d.IsValidCall 0x02).2 = d :=
  ⟨_, Initialize_sample, rfl, rfl,
    (IsValid_iff sampleUtils fresh _ 0x8000 0x01 0x02 CpuType.Nes SnesMemoryType.GbPrgRom
      sampleMemory Initialize_sample).2.2⟩

end JumpAndValidity

section HighRegion

open SnesMemoryType

/-- C14. For a `GbHighRam` descriptor, `GetRelativeAddress` is `0xFF80 | (offset & 0x7F)`
and is the same for any two machines; hence for `0xFF80 ≤ A ≤ 0xFFFE` the round trip
`GetRelativeAddress (GetAbsoluteAddress A)` is `A`. -/
theorem GetRelativeAddress_high (gb gb2 : Gameboy) (d : AddressInfo) (A : Nat)
    (hd : d.Type_ = GbHighRam) (h1 : 0xFF80 ≤ A) (h2 : A ≤ 0xFFFE) :
    gb.GetRelativeAddress d = 0xFF80 + d.Address % 128 ∧
      gb.GetRelativeAddress d = gb2.GetRelativeAddress d ∧
      gb.GetRelativeAddress (gb.GetAbsoluteAddress A) = (A : Int) := by
  have hA : 0xFF80 ≤ A ∧ A ≤ 0xFFFE := ⟨h1, h2⟩
  refine ⟨?_, ?_, ?_⟩
  · simp [Gameboy.GetRelativeAddress, hd]
  · simp [Gameboy.GetRelativeAddress, hd]
  · simp only [Gameboy.GetAbsoluteAddress, hA, and_self, if_true, Gameboy.GetRelativeAddress]
    omega

theorem GetRelativeAddress_high_witness :
    sampleGameboy.GetRelativeAddress { Address := 0x11, Type_ := GbHighRam } = 0xFF91 ∧
      sampleGameboy.GetRelativeAddress { Address := 0x11, Type_ := GbHighRam }
        = skewedGameboy.GetRelativeAddress { Address := 0x11, Type_ := GbHighRam } ∧
      sampleGameboy.GetRelativeAddress (sampleGameboy.GetAbsoluteAddress 0xFFFE) = 0xFFFE :=
  GetRelativeAddress_high sampleGameboy skewedGameboy { Address := 0x11, Type_ := GbHighRam }
    0xFFFE rfl (by decide) (by decide)

end HighRegion

section ReverseRoundTrip

open SnesMemoryType

theorem reverse_core (blk base lo size : Nat) (addr : Int) (hb : base ≤ blk)
    (hbs : blk < base + size) (hx : (blk - base) % 256 = 0) (hsize : size < 2 ^ 32)
    (h0 : 0 ≤ addr) (h1 : addr < size) (hlo : addr % 256 = (lo : Int))
    (hw : toInt32 ((blk - base : Nat) : Int) - toInt32 ((blk - base : Nat) : Int) % 256
      = addr - addr % 256) :
    (base ≤ blk + lo ∧ blk + lo < base + size) ∧
      toInt32 ((blk + lo - base : Nat) : Int) = addr := by
  unfold toInt32 at *
  norm_num at *
  omega

theorem not_in_separate (b1 s1 b2 s2 p : Nat)
    (hsep : s1 = 0 ∨ s2 = 0 ∨ b1 + s1 ≤ b2 ∨ b2 + s2 ≤ b1) (hp : b2 ≤ p ∧ p < b2 + s2) :
    ¬ (b1 ≤ p ∧ p < b1 + s1) := by
  omega

theorem GetAbsoluteAddress_of_mem (gb : Gameboy) (A blk : Nat) (R : SnesMemoryType)
    (base size : Nat) (hnh : ¬ (0xFF80 ≤ A ∧ A ≤ 0xFFFE)) (hmap : gb.reads (A / 256) = some blk)
    (hsep : gb.blocksSeparate) (hmem : (R, base, size) ∈ gb.testedBlocks)
    (hin : base ≤ blk + A % 256 ∧ blk + A % 256 < base + size) :
    gb.GetAbsoluteAddress A
      = { Address := toInt32 ((blk + A % 256 - base : Nat) : Int), Type_ := R } := by
  simp only [Gameboy.blocksSeparate, Gameboy.testedBlocks, List.pairwise_cons, List.mem_cons,
    List.mem_singleton, forall_eq_or_imp, forall_eq, List.not_mem_nil, false_implies,
    implies_true, List.Pairwise.nil, and_true] at hsep
  obtain ⟨⟨s12, s13, s14⟩, ⟨s23, s24⟩, s34⟩ := hsep
  simp only [Gameboy.testedBlocks, List.mem_cons, List.mem_singleton, Prod.mk.injEq,
    List.not_mem_nil, or_false] at hmem
  simp only [Gameboy.GetAbsoluteAddress, Gameboy.GetMappedBlock, hnh, if_false, hmap]
  rcases hmem with ⟨t, hb, hs⟩ | ⟨t, hb, hs⟩ | ⟨t, hb, hs⟩ | ⟨t, hb, hs⟩ <;> subst t hb hs
  · simp only [hin, and_self, if_true]
  · have n1 := not_in_separate _ _ _ _ _ s12 hin
    simp only [n1, hin, and_self, if_true, if_false]
  · have n1 := not_in_separate _ _ _ _ _ s13 hin
    have n2 := not_in_separate _ _ _ _ _ s23 hin
    simp only [n1, n2, hin, and_self, if_true, if_false]
  · have n1 := not_in_separate _ _ _ _ _ s14 hin
    have n2 := not_in_separate _ _ _ _ _ s24 hin
    have n3 := not_in_separate _ _ _ _ _ s34 hin
    simp only [n1, n2, n3, hin, and_self, if_true, if_false]

/-- The page base `256 * j` translates to the region `R` only if the block pointer of
the page lies in the block of `R`, and then the offset is the cast of the distance. -/
theorem page_base_in_block (gb : Gameboy) (j blk : Nat) (R : SnesMemoryType) (base size : Nat)
    (hj : j < 256) (hmap : gb.reads j = some blk) (hmem : (R, base, size) ∈ gb.testedBlocks)
    (hty : (gb.GetAbsoluteAddress (256 * j)).Type_ = R) :
    (base ≤ blk ∧ blk < base + size) ∧
      (gb.GetAbsoluteAddress (256 * j)).Address = toInt32 ((blk - base : Nat) : Int) := by
  have hnb : ¬ (0xFF80 ≤ 256 * j ∧ 256 * j ≤ 0xFFFE) := by omega
  have hi3 : 256 * j / 256 = j := by omega
  have hi4 : 256 * j % 256 = 0 := by omega
  simp only [Gameboy.testedBlocks, List.mem_cons, List.mem_singleton, Prod.mk.injEq,
    List.not_mem_nil, or_false] at hmem
  simp only [Gameboy.GetAbsoluteAddress, Gameboy.GetMappedBlock, hnb, if_false, hi3, hi4,
    Nat.add_zero, hmap] at hty ⊢
  rcases hmem with ⟨t, hb, hs⟩ | ⟨t, hb, hs⟩ | ⟨t, hb, hs⟩ | ⟨t, hb, hs⟩ <;>
    subst t hb hs <;> split_ifs at hty ⊢ with c1 c2 c3 c4 <;>
    first
    | exact SnesMemoryType.noConfusion hty
    | exact ⟨by assumption, rfl⟩

/-- C13. In a machine whose mapped pages start at 256-byte-aligned offsets of their
blocks (the four tested blocks being separate allocations with `uint32_t` sizes), for a
descriptor `d` of program ROM, work RAM, cart RAM or boot ROM whose offset lies inside
the block: if `GetRelativeAddress d` is not `-1` and is below `0xFF80`, then
`GetAbsoluteAddress` of it is `d`. -/
theorem GetAbsoluteAddress_GetRelativeAddress (gb : Gameboy) (d : AddressInfo)
    (base size : Nat) (hal : gb.pagesAligned) (hsep : gb.blocksSeparate)
    (hd : (d.Type_, base, size) ∈ gb.testedBlocks) (hsize : size < 2 ^ 32)
    (h0 : 0 ≤ d.Address) (h1 : d.Address < size)
    (hne : gb.GetRelativeAddress d ≠ -1) (hlt : gb.GetRelativeAddress d < 0xFF80) :
    gb.GetAbsoluteAddress (gb.GetRelativeAddress d).toNat = d := by
  have hty : d.Type_ ≠ GbHighRam := by
    intro h
    rw [h] at hd
    simp [Gameboy.testedBlocks] at hd
  simp only [Gameboy.GetRelativeAddress, hty, if_false] at hne hlt ⊢
  have hex : ∃ j, j < 256 ∧ gb.blockMatches d (0 + 256 * j) = true := by
    by_contra hno
    apply hne
    rw [scanPages_eq_neg_one_iff]
    intro j hj
    by_contra hm
    exact hno ⟨j, hj, by simpa using hm⟩
  obtain ⟨j0, hj0, hm0⟩ := hex
  obtain ⟨j, hjle, hm, he⟩ := scanPages_exists gb d 256 0 j0 hj0 hm0
  have hj : j < 256 := lt_of_le_of_lt hjle hj0
  rw [he] at hlt ⊢
  have hlo0 : 0 ≤ d.Address % 256 := Int.emod_nonneg _ (by decide)
  have hlo1 : d.Address % 256 < 256 := Int.emod_lt_of_pos _ (by decide)
  obtain ⟨lo, hlo⟩ : ∃ lo : Nat, d.Address % 256 = (lo : Int) :=
    ⟨(d.Address % 256).toNat, by omega⟩
  have hlo256 : lo < 256 := by omega
  have hr : (((0 + 256 * j : Nat) : Int) + d.Address % 256).toNat = 256 * j + lo := by omega
  rw [hr]
  have hnh : ¬ (0xFF80 ≤ 256 * j + lo ∧ 256 * j + lo ≤ 0xFFFE) := by omega
  have hi1 : (256 * j + lo) / 256 = j := by omega
  have hi2 : (256 * j + lo) % 256 = lo := by omega
  simp only [Gameboy.blockMatches, Nat.zero_add, decide_eq_true_eq] at hm
  obtain ⟨hmt, hmw⟩ := hm
  cases hrd : gb.reads j with
  | none =>
    have hreg : (gb.GetAbsoluteAddress (256 * j)).Type_ = Register := by
      have hnb : ¬ (0xFF80 ≤ 256 * j ∧ 256 * j ≤ 0xFFFE) := by omega
      have hi3 : 256 * j / 256 = j := by omega
      simp [Gameboy.GetAbsoluteAddress, Gameboy.GetMappedBlock, hnb, hi3, hrd]
    rw [hreg] at hmt
    rw [← hmt] at hd
    simp [Gameboy.testedBlocks] at hd
  | some blk =>
    obtain ⟨hin0, haddr⟩ := page_base_in_block gb j blk d.Type_ base size hj hrd hd hmt
    have hx : (blk - base) % 256 = 0 := hal j hj blk hrd _ hd hin0.1 hin0.2
    rw [haddr] at hmw
    obtain ⟨hin, hc2⟩ := reverse_core blk base lo size d.Address hin0.1 hin0.2 hx hsize h0 h1
      hlo hmw
    have hmap : gb.reads ((256 * j + lo) / 256) = some blk := by rw [hi1]; exact hrd
    have hin2 : base ≤ blk + (256 * j + lo) % 256 ∧ blk + (256 * j + lo) % 256 < base + size := by
      rw [hi2]; exact hin
    have hfin := GetAbsoluteAddress_of_mem gb (256 * j + lo) blk d.Type_ base size hnh hmap hsep
      hd hin2
    rw [hi2, hc2] at hfin
    exact hfin

theorem sampleGameboy_pagesAligned : sampleGameboy.pagesAligned := by
  intro k hk blk hblk r hr hlo hhi
  simp only [sampleGameboy] at hblk
  simp only [Gameboy.testedBlocks, sampleGameboy, List.mem_cons, List.mem_singleton,
    List.not_mem_nil, or_false] at hr
  rcases hr with rfl | rfl | rfl | rfl <;> simp only at hlo hhi ⊢ <;> split_ifs at hblk <;>
    (have h := Option.some.inj hblk; omega)

theorem sampleGameboy_blocksSeparate : sampleGameboy.blocksSeparate := by
  simp [Gameboy.blocksSeparate, Gameboy.testedBlocks, sampleGameboy]

set_option maxRecDepth 100000 in
theorem GetAbsoluteAddress_GetRelativeAddress_witness :
    sampleGameboy.GetRelativeAddress { Address := 0x123, Type_ := GbWorkRam } = 0xC123 ∧
      sampleGameboy.GetAbsoluteAddress
          (sampleGameboy.GetRelativeAddress { Address := 0x123, Type_ := GbWorkRam }).toNat
        = { Address := 0x123, Type_ := GbWorkRam } :=
  ⟨by decide,
    GetAbsoluteAddress_GetRelativeAddress sampleGameboy { Address := 0x123, Type_ := GbWorkRam }
      0x200000 0x2000 sampleGameboy_pagesAligned sampleGameboy_blocksSeparate (by decide)
      (by decide) (by decide) (by decide) (by decide) (by decide)⟩

end ReverseRoundTrip

end Mesen
